import Mathlib

/-!
Shallow embedding of the condition-variable core (`src/cond.c`) and the
pool accounting helpers (`src/include/abti_pool.h`) of the Argobots
runtime, together with theorems checking the natural-language
specification against this code.

Modelling conventions:
* Mutex handles (`ABT_mutex`) are identified by natural numbers;
  `ABT_MUTEX_NULL` is `none` of an `Option Nat`.  `ABT_mutex_equal` on
  non-null handles is identity of the handle, i.e. `Nat` equality.
* A waiter's `current` pointer holds either a ULT pointer or a pointer to
  the external thread's stack flag; both are modelled as a `Nat` identity.
  The sentinel's cleared `current = NULL` is `none`.
* The singly-linked waiter list from `waiters.head` to `waiters.tail` is a
  Lean list, head first.  `tail->next = NULL` is implicit in the list.
* The guard mutex `p_cond->mutex` serializes each operation; the embedding
  makes every operation one atomic step on the state, which is exactly the
  serialization the guard provides.
* `ABTU_malloc` is plain `malloc` and may fail; operations that allocate
  take an `allocOk : Bool` telling whether the allocation succeeds.
  `assert` failure (process abort) is the distinguished outcome
  `WaitOutcome.abort`.
-/

/-- Embedding of `ABT_unit_type`: discriminates a ULT waiter (`ABT_UNIT_TYPE_THREAD`)
from an external-thread waiter (`ABT_UNIT_TYPE_EXT`). -/
inductive ABT_unit_type where
  | thread
  | ext
deriving DecidableEq, Repr

/-- Embedding of `ABTI_thread_entry`: one node of the waiter list.  `current` is the
`ABTI_thread *` field (ULT pointer, or pointer to the external flag, or
`NULL` for the cleared sentinel); `type` is the `ABT_unit_type`
discriminant.  The `next` link is represented by list structure. -/
structure ABTI_thread_entry where
  current : Option Nat
  type : ABT_unit_type
deriving DecidableEq, Repr

/-- Embedding of `ABTI_cond`: the condition-variable state protected by the internal
guard mutex.  `waiter_mutex` is the associated user mutex
(`ABT_MUTEX_NULL` = `none`), `num_waiters` the waiter count, `waiters`
the head-to-tail node list (never empty in any state the C code builds:
creation installs a sentinel node that is retained for the CV's
lifetime). -/
structure ABTI_cond where
  waiter_mutex : Option Nat
  num_waiters : Nat
  waiters : List ABTI_thread_entry
deriving DecidableEq, Repr

/-- Error codes used by the condition-variable API.  `err_inv_cond` is the
null-handle error, `err_inv_mutex` is `ABT_ERR_INV_MUTEX`, `err_cond` is
`ABT_ERR_COND`, `err_mem` is `ABT_ERR_MEM`. -/
inductive AbtError where
  | success
  | err_mem
  | err_inv_cond
  | err_inv_mutex
  | err_cond
deriving DecidableEq, Repr

/-- Embedding of `ABT_cond_create` (successful path): `waiter_mutex = ABT_MUTEX_NULL`,
`num_waiters = 0`, and one pre-allocated sentinel entry with
`current = NULL`, `next = NULL`, installed as both head and tail.  The C
code leaves the sentinel's `type` field uninitialized; it is never read
while the queue is empty, and we pick `.thread` arbitrarily. -/
def cond_create : ABTI_cond :=
  { waiter_mutex := none
    num_waiters := 0
    waiters := [{ current := none, type := ABT_unit_type.thread }] }

/-- The thread-local runtime context consulted by `ABT_cond_wait`
(lines 131-142 of `cond.c`): `uninit` is `lp_ABTI_local == NULL`
(external thread, TLS uninitialized); `init p` is an initialized TLS
whose current ULT is `p` (`ABTI_local_get_thread()`, `NULL` = `none`). -/
inductive ABTI_local_ctx where
  | uninit
  | init (p_thread : Option Nat)
deriving DecidableEq, Repr

/-- Outcome of `ABT_cond_wait`: either the assertion
`assert(p_entry != NULL)` fails and the process aborts, or the call
returns an error code with the CV in the given state. -/
inductive WaitOutcome where
  | abort
  | ret (errno : AbtError) (cond : ABTI_cond)
deriving DecidableEq, Repr

/-- Body of `ABT_cond_wait` from the point where the guard is acquired
(line 144): associated-mutex check, then enqueue.  `target` and `ty` are
the caller's waiter identity and kind as determined by the caller-kind
logic; `allocOk` tells whether `ABTU_malloc` of a fresh entry would
succeed. -/
def cond_wait_enqueue (cv : ABTI_cond) (target : Nat) (ty : ABT_unit_type)
    (mutex : Nat) (allocOk : Bool) : WaitOutcome :=
  let check : Option ABTI_cond :=
    match cv.waiter_mutex with
    | none => some { cv with waiter_mutex := some mutex }
    | some m => if m = mutex then some cv else none
  match check with
  | none => WaitOutcome.ret AbtError.err_inv_mutex cv
  | some cv1 =>
    if cv1.num_waiters = 0 then
      -- reuse the sentinel slot: p_entry = head; p_entry->current = p_thread
      match cv1.waiters with
      | [] => WaitOutcome.ret AbtError.success cv1
        -- unreachable: the C list always holds the sentinel, head != NULL
      | _hd :: rest =>
        WaitOutcome.ret AbtError.success
          { cv1 with
            waiters := { current := some target, type := ty } :: rest
            num_waiters := cv1.num_waiters + 1 }
    else
      if allocOk then
        WaitOutcome.ret AbtError.success
          { cv1 with
            waiters := cv1.waiters ++ [{ current := some target, type := ty }]
            num_waiters := cv1.num_waiters + 1 }
      else
        WaitOutcome.abort

/-- Embedding of `ABT_cond_wait(cond, mutex)` for a non-null CV handle.  `ctx` is the
thread-local runtime context; `extAddr` stands for the address of the
caller's on-stack `ext_signal` flag, used when the caller is an external
thread.  The post-enqueue effects (set-blocked, releasing the user
mutex, suspension, re-lock) concern the collaborating scheduler and
mutex, not the CV state. -/
def cond_wait (cv : ABTI_cond) (ctx : ABTI_local_ctx) (mutex : Nat)
    (extAddr : Nat) (allocOk : Bool) : WaitOutcome :=
  match ctx with
  | ABTI_local_ctx.init none => WaitOutcome.ret AbtError.err_cond cv
  | ABTI_local_ctx.init (some tid) =>
    cond_wait_enqueue cv tid ABT_unit_type.thread mutex allocOk
  | ABTI_local_ctx.uninit =>
    cond_wait_enqueue cv extAddr ABT_unit_type.ext mutex allocOk

/-- The wake action performed on a dequeued waiter: a ULT target is made
READY (`ABTI_thread_set_ready`), an external target's flag is stored 1
(`*p_ext_signal = 1`). -/
inductive WakeEvent where
  | set_ready (target : Option Nat)
  | set_flag (target : Option Nat)
deriving DecidableEq, Repr

/-- The `if (entry->type == ABT_UNIT_TYPE_THREAD) ... else ...` wake
dispatch shared by `ABT_cond_signal` and `ABT_cond_broadcast`. -/
def wake (e : ABTI_thread_entry) : WakeEvent :=
  match e.type with
  | ABT_unit_type.thread => WakeEvent.set_ready e.current
  | ABT_unit_type.ext => WakeEvent.set_flag e.current

/-- Result of `ABT_cond_signal` on a non-null handle: error code, new CV
state, the wake action performed (if any), and how many entries were
passed to `ABTU_free`. -/
structure SignalResult where
  errno : AbtError
  cond : ABTI_cond
  woken : Option WakeEvent
  freed : Nat
deriving DecidableEq, Repr

/-- Embedding of `ABT_cond_signal(cond)` for a non-null handle (lines 227-254 of
`cond.c`): no-op when `num_waiters == 0`; otherwise wake the head
waiter; if it was the last waiter, clear the sentinel's `current` and
the associated mutex (the sentinel is kept), else advance the head and
free the old head node; decrement `num_waiters`. -/
def cond_signal (cv : ABTI_cond) : SignalResult :=
  if cv.num_waiters = 0 then
    { errno := AbtError.success, cond := cv, woken := none, freed := 0 }
  else
    match cv.waiters with
    | [] =>
      -- unreachable: the C head pointer is never NULL (sentinel)
      { errno := AbtError.success, cond := cv, woken := none, freed := 0 }
    | hd :: rest =>
      if cv.num_waiters = 1 then
        { errno := AbtError.success
          cond := { waiter_mutex := none
                    num_waiters := cv.num_waiters - 1
                    waiters := { hd with current := none } :: rest }
          woken := some (wake hd)
          freed := 0 }
      else
        { errno := AbtError.success
          cond := { cv with
                    num_waiters := cv.num_waiters - 1
                    waiters := rest }
          woken := some (wake hd)
          freed := 1 }

/-- Result of `ABT_cond_broadcast` on a non-null handle: error code, new
CV state, the wake actions in the order performed, and how many entries
were passed to `ABTU_free`. -/
structure BroadcastResult where
  errno : AbtError
  cond : ABTI_cond
  woken : List WakeEvent
  freed : Nat
deriving DecidableEq, Repr

/-- Embedding of `ABT_cond_broadcast(cond)` for a non-null handle (lines 283-321 of
`cond.c`): no-op when `num_waiters == 0`; otherwise wake the head, clear
its `current`, then walk the rest of the list waking and freeing each
node; finally reset `head->next = NULL`, `tail = head`,
`num_waiters = 0`, `waiter_mutex = ABT_MUTEX_NULL`. -/
def cond_broadcast (cv : ABTI_cond) : BroadcastResult :=
  if cv.num_waiters = 0 then
    { errno := AbtError.success, cond := cv, woken := [], freed := 0 }
  else
    match cv.waiters with
    | [] =>
      -- unreachable: the C head pointer is never NULL (sentinel)
      { errno := AbtError.success, cond := cv, woken := [], freed := 0 }
    | hd :: rest =>
      { errno := AbtError.success
        cond := { waiter_mutex := none
                  num_waiters := 0
                  waiters := [{ hd with current := none }] }
        woken := wake hd :: rest.map wake
        freed := rest.length }

/-- Modelled from the spec: the null-handle guard
`ABTI_CHECK_NULL_COND_PTR` (its definition lives in a header that is not
part of the sources here) fails with the invalid-handle error when the
CV handle is `ABT_COND_NULL`; the spec's failure table says a null CV
handle yields `InvalidHandle`.  The error code of `ABT_cond_signal` at
the handle level. -/
def ABT_cond_signal_errno : Option ABTI_cond → AbtError
  | none => AbtError.err_inv_cond
  | some cv => (cond_signal cv).errno

/-- Modelled from the spec: null-handle guard as above, for
`ABT_cond_broadcast`.  The error code at the handle level. -/
def ABT_cond_broadcast_errno : Option ABTI_cond → AbtError
  | none => AbtError.err_inv_cond
  | some cv => (cond_broadcast cv).errno

/-- Embedding of `ABTI_pool`, restricted to the fields the accounting helpers of
`abti_pool.h` touch: `size` is the value the `p_get_size` vtable call
returns (the pluggable queue's own size); `num_blocked` and
`num_migrations` are the `int32_t` atomic counters.  The counters are
modelled as unbounded `Int` (`int32_t` overflow is out of scope; under
the bracketing discipline below all values stay small and
nonnegative). -/
structure ABTI_pool where
  size : Nat
  num_blocked : Int
  num_migrations : Int
deriving DecidableEq, Repr

/-- Embedding of `ABTI_pool_get_size`: dispatch to the vtable's `p_get_size`. -/
def ABTI_pool_get_size (p : ABTI_pool) : Nat := p.size

/-- Embedding of `ABTI_pool_get_total_size`: `get_size` plus acquire-loads of
`num_blocked` and `num_migrations`.  The C sum is carried out in
`size_t`; with nonnegative counters (the case proved below) the exact
integer sum computed here coincides with it. -/
def ABTI_pool_get_total_size (p : ABTI_pool) : Int :=
  (ABTI_pool_get_size p : Int) + p.num_blocked + p.num_migrations

/-- Embedding of `ABTI_pool_inc_num_blocked`: `fetch_add(&num_blocked, 1)`. -/
def ABTI_pool_inc_num_blocked (p : ABTI_pool) : ABTI_pool :=
  { p with num_blocked := p.num_blocked + 1 }

/-- Embedding of `ABTI_pool_dec_num_blocked`: `fetch_sub(&num_blocked, 1)`. -/
def ABTI_pool_dec_num_blocked (p : ABTI_pool) : ABTI_pool :=
  { p with num_blocked := p.num_blocked - 1 }

/-- Embedding of `ABTI_pool_inc_num_migrations`: `fetch_add(&num_migrations, 1)`. -/
def ABTI_pool_inc_num_migrations (p : ABTI_pool) : ABTI_pool :=
  { p with num_migrations := p.num_migrations + 1 }

/-- Embedding of `ABTI_pool_dec_num_migrations`: `fetch_sub(&num_migrations, 1)`. -/
def ABTI_pool_dec_num_migrations (p : ABTI_pool) : ABTI_pool :=
  { p with num_migrations := p.num_migrations - 1 }

/-- An accounting operation on a pool's counters. -/
inductive PoolOp where
  | incBlocked
  | decBlocked
  | incMigr
  | decMigr
deriving DecidableEq, Repr

/-- Apply one accounting operation. -/
def applyPoolOp (p : ABTI_pool) : PoolOp → ABTI_pool
  | PoolOp.incBlocked => ABTI_pool_inc_num_blocked p
  | PoolOp.decBlocked => ABTI_pool_dec_num_blocked p
  | PoolOp.incMigr => ABTI_pool_inc_num_migrations p
  | PoolOp.decMigr => ABTI_pool_dec_num_migrations p

/-- Apply a sequence of accounting operations, first element first. -/
def applyPoolOps (p : ABTI_pool) (ops : List PoolOp) : ABTI_pool :=
  ops.foldl applyPoolOp p

/-- A pool as the runtime creates it: counters at zero, queue size as
given by the plugged-in implementation. -/
def pool_init (sz : Nat) : ABTI_pool :=
  { size := sz, num_blocked := 0, num_migrations := 0 }

/-- The bracketing discipline of the spec: every
`dec_num_blocked` has a matching earlier `inc_num_blocked` (a blocked
ULT returns only after having left), and likewise for migrations. -/
def bracketed (ops : List PoolOp) : Prop :=
  ops.count PoolOp.decBlocked ≤ ops.count PoolOp.incBlocked ∧
  ops.count PoolOp.decMigr ≤ ops.count PoolOp.incMigr

instance (ops : List PoolOp) : Decidable (bracketed ops) := by
  unfold bracketed
  exact inferInstance

/-- Well-formedness of a CV state, the invariants the spec lists as
maintained under the guard: the waiter count matches the associated
mutex (zero iff none), the empty state is exactly the cleared sentinel,
and a non-empty queue has `num_waiters` entries all carrying a live
target. -/
def CondWF (cv : ABTI_cond) : Prop :=
  (cv.num_waiters = 0 ↔ cv.waiter_mutex = none) ∧
  (cv.num_waiters = 0 →
    cv.waiters.length = 1 ∧ ∀ e ∈ cv.waiters, e.current = none) ∧
  (cv.num_waiters ≠ 0 →
    cv.waiters.length = cv.num_waiters ∧ ∀ e ∈ cv.waiters, e.current ≠ none)

instance (cv : ABTI_cond) : Decidable (CondWF cv) := by
  unfold CondWF
  exact inferInstance

/-- The CV states reachable through the public operations: creation,
then any sequence of (non-aborting) waits, signals and broadcasts. -/
inductive CondReach : ABTI_cond → Prop where
  | create : CondReach cond_create
  | wait (cv : ABTI_cond) (ctx : ABTI_local_ctx) (mutex extAddr : Nat)
      (allocOk : Bool) (errno : AbtError) (cv' : ABTI_cond)
      (h : CondReach cv)
      (heq : cond_wait cv ctx mutex extAddr allocOk =
        WaitOutcome.ret errno cv') :
      CondReach cv'
  | signal (cv : ABTI_cond) (h : CondReach cv) :
      CondReach (cond_signal cv).cond
  | broadcast (cv : ABTI_cond) (h : CondReach cv) :
      CondReach (cond_broadcast cv).cond

/-- Number of live entries (entries holding a target) on the walk from
head to tail; the cleared sentinel contributes zero. -/
def liveCount (cv : ABTI_cond) : Nat :=
  cv.waiters.countP (fun e => e.current.isSome)

/-- The waiter-list entry a wait call with target `w.1` and kind `w.2`
builds. -/
def mkEntry (w : Nat × ABT_unit_type) : ABTI_thread_entry :=
  { current := some w.1, type := w.2 }

/-- One wait call for waiter `w` (ULT waiters run with an initialized
thread-local holding their ULT; external waiters run with an
uninitialized thread-local and their stack flag), with `ABTU_malloc`
succeeding.  Yields the CV state after the call (unchanged if the call
errored; the abort case cannot arise with a succeeding allocator). -/
def waitStep (m : Nat) (cv : ABTI_cond) (w : Nat × ABT_unit_type) :
    ABTI_cond :=
  match w.2 with
  | ABT_unit_type.thread =>
    match cond_wait cv (ABTI_local_ctx.init (some w.1)) m 0 true with
    | WaitOutcome.ret _ cv' => cv'
    | WaitOutcome.abort => cv
  | ABT_unit_type.ext =>
    match cond_wait cv ABTI_local_ctx.uninit m w.1 true with
    | WaitOutcome.ret _ cv' => cv'
    | WaitOutcome.abort => cv

/-- Perform the wait calls of the waiters `ws`, in order, all against
user mutex `m` (the serialization under the CV guard makes them a
sequence of atomic steps). -/
def enqueueAll (m : Nat) (cv : ABTI_cond) (ws : List (Nat × ABT_unit_type)) :
    ABTI_cond :=
  ws.foldl (waitStep m) cv

/-- Perform `n` signal calls on the CV, collecting the wake actions in
the order they are performed. -/
def signalAll : ABTI_cond → Nat → List WakeEvent × ABTI_cond
  | cv, 0 => ([], cv)
  | cv, n + 1 =>
    let r := cond_signal cv
    let rest := signalAll r.cond n
    (r.woken.toList ++ rest.1, rest.2)

/-- A CV with a single enqueued ULT waiter (ULT 1, user mutex 5), as
built by one wait call on a fresh CV. -/
def cvOneWaiter : ABTI_cond :=
  { waiter_mutex := some 5
    num_waiters := 1
    waiters := [{ current := some 1, type := ABT_unit_type.thread }] }

/-- A CV with three enqueued ULT waiters (ULTs 1, 2, 3, user mutex 5),
as built by three wait calls on a fresh CV. -/
def cvThreeWaiters : ABTI_cond :=
  { waiter_mutex := some 5
    num_waiters := 3
    waiters := [{ current := some 1, type := ABT_unit_type.thread },
                { current := some 2, type := ABT_unit_type.thread },
                { current := some 3, type := ABT_unit_type.thread }] }

theorem condWF_create : CondWF cond_create := by decide

theorem cond_wait_enqueue_first {cv : ABTI_cond} (hm : cv.waiter_mutex = none)
    (h0 : cv.num_waiters = 0) {a : ABTI_thread_entry}
    {rest : List ABTI_thread_entry} (hw : cv.waiters = a :: rest)
    (t : Nat) (ty : ABT_unit_type) (m : Nat) (ok : Bool) :
    cond_wait_enqueue cv t ty m ok = WaitOutcome.ret AbtError.success
      { waiter_mutex := some m, num_waiters := 1,
        waiters := { current := some t, type := ty } :: rest } := by
  unfold cond_wait_enqueue
  simp [hm, h0, hw]

theorem cond_wait_enqueue_append {cv : ABTI_cond} {m : Nat}
    (hm : cv.waiter_mutex = some m) (hne : cv.num_waiters ≠ 0)
    (t : Nat) (ty : ABT_unit_type) :
    cond_wait_enqueue cv t ty m true = WaitOutcome.ret AbtError.success
      { cv with
        waiters := cv.waiters ++ [{ current := some t, type := ty }]
        num_waiters := cv.num_waiters + 1 } := by
  unfold cond_wait_enqueue
  simp [hm, hne]

theorem cond_wait_enqueue_reuse_assoc {cv : ABTI_cond} {m : Nat}
    (hm : cv.waiter_mutex = some m) (h0 : cv.num_waiters = 0)
    {a : ABTI_thread_entry} {rest : List ABTI_thread_entry}
    (hw : cv.waiters = a :: rest) (t : Nat) (ty : ABT_unit_type)
    (ok : Bool) :
    cond_wait_enqueue cv t ty m ok = WaitOutcome.ret AbtError.success
      { waiter_mutex := some m, num_waiters := 1,
        waiters := { current := some t, type := ty } :: rest } := by
  unfold cond_wait_enqueue
  simp [hm, h0, hw]

theorem cond_wait_enqueue_append_setm {cv : ABTI_cond} {m : Nat}
    (hm : cv.waiter_mutex = none) (hne : cv.num_waiters ≠ 0)
    (t : Nat) (ty : ABT_unit_type) :
    cond_wait_enqueue cv t ty m true = WaitOutcome.ret AbtError.success
      { waiter_mutex := some m, num_waiters := cv.num_waiters + 1,
        waiters := cv.waiters ++ [{ current := some t, type := ty }] } := by
  unfold cond_wait_enqueue
  simp [hm, hne]

theorem cond_wait_enqueue_mismatch {cv : ABTI_cond} {m' m : Nat}
    (hm : cv.waiter_mutex = some m') (hne : m' ≠ m)
    (t : Nat) (ty : ABT_unit_type) (ok : Bool) :
    cond_wait_enqueue cv t ty m ok =
      WaitOutcome.ret AbtError.err_inv_mutex cv := by
  unfold cond_wait_enqueue
  simp [hm, hne]

theorem cond_wait_enqueue_alloc_fail {cv : ABTI_cond} {m : Nat}
    (hm : cv.waiter_mutex = some m) (hne : cv.num_waiters ≠ 0)
    (t : Nat) (ty : ABT_unit_type) :
    cond_wait_enqueue cv t ty m false = WaitOutcome.abort := by
  unfold cond_wait_enqueue
  simp [hm, hne]

theorem condWF_enqueue {cv : ABTI_cond} {t : Nat} {ty : ABT_unit_type}
    {m : Nat} {ok : Bool} {e : AbtError} {cv' : ABTI_cond} (h : CondWF cv)
    (heq : cond_wait_enqueue cv t ty m ok = WaitOutcome.ret e cv') :
    CondWF cv' := by
  obtain ⟨hiff, hempty, hfull⟩ := h
  unfold cond_wait_enqueue at heq
  cases hm : cv.waiter_mutex with
  | none =>
    have h0 : cv.num_waiters = 0 := hiff.mpr hm
    obtain ⟨hlen, _hcur⟩ := hempty h0
    cases hw : cv.waiters with
    | nil => rw [hw] at hlen; simp at hlen
    | cons a rest =>
      rw [hw] at hlen
      have hrest : rest = [] := by
        simpa using hlen
      subst hrest
      simp [hm, hw, h0] at heq
      obtain ⟨_, hcv'⟩ := heq
      subst hcv'
      refine ⟨by simp, by simp, ?_⟩
      intro _
      simp
  | some m' =>
    by_cases hmm : m' = m
    · have hne : cv.num_waiters ≠ 0 := by
        intro h0
        rw [hiff.mp h0] at hm
        exact Option.noConfusion hm
      obtain ⟨hlen, hcur⟩ := hfull hne
      cases ok with
      | false => simp [hm, hmm, hne] at heq
      | true =>
        simp only [hm, hmm, if_true, hne, if_false, Bool.true_eq_false,
          if_neg hne] at heq
        simp only [WaitOutcome.ret.injEq] at heq
        obtain ⟨_, hcv'⟩ := heq
        subst hcv'
        refine ⟨by simp, by simp, ?_⟩
        intro _
        constructor
        · simp [hlen]
        · intro x hx
          rcases List.mem_append.mp hx with hx | hx
          · exact hcur x hx
          · simp only [List.mem_singleton] at hx
            subst hx
            simp
    · simp only [hm, hmm, if_false] at heq
      simp only [WaitOutcome.ret.injEq] at heq
      obtain ⟨_, hcv'⟩ := heq
      subst hcv'
      exact ⟨hiff, hempty, hfull⟩

theorem condWF_wait {cv : ABTI_cond} {ctx : ABTI_local_ctx}
    {m addr : Nat} {ok : Bool} {e : AbtError} {cv' : ABTI_cond}
    (h : CondWF cv)
    (heq : cond_wait cv ctx m addr ok = WaitOutcome.ret e cv') :
    CondWF cv' := by
  cases ctx with
  | uninit => exact condWF_enqueue h heq
  | init o =>
    cases o with
    | none =>
      simp only [cond_wait, WaitOutcome.ret.injEq] at heq
      obtain ⟨_, hcv'⟩ := heq
      subst hcv'
      exact h
    | some tid => exact condWF_enqueue h heq

theorem condWF_signal {cv : ABTI_cond} (h : CondWF cv) :
    CondWF (cond_signal cv).cond := by
  obtain ⟨hiff, hempty, hfull⟩ := h
  unfold cond_signal
  by_cases h0 : cv.num_waiters = 0
  · simp only [h0, if_true]
    exact ⟨hiff, hempty, hfull⟩
  · obtain ⟨hlen, hcur⟩ := hfull h0
    cases hw : cv.waiters with
    | nil => rw [hw] at hlen; exact absurd hlen.symm h0
    | cons hd rest =>
      rw [hw] at hlen
      by_cases h1 : cv.num_waiters = 1
      · have hrest : rest = [] := by
          rw [h1] at hlen
          simpa using hlen
        subst hrest
        simp only [h0, if_false, hw, h1, if_true]
        refine ⟨by simp, by simp, by simp⟩
      · simp only [h0, if_false, hw, h1, if_true]
        have hmut : ∃ mm, cv.waiter_mutex = some mm := by
          cases hm : cv.waiter_mutex with
          | none => exact absurd (hiff.mpr hm) h0
          | some mm => exact ⟨mm, rfl⟩
        obtain ⟨mm, hm⟩ := hmut
        refine ⟨?_, ?_, ?_⟩
        · constructor
          · intro hz
            simp at hz
            omega
          · intro hc
            simp [hm] at hc
        · intro hz
          simp at hz
          omega
        · intro _
          refine ⟨?_, ?_⟩
          · show rest.length = cv.num_waiters - 1
            simp at hlen
            omega
          · intro x hx
            exact hcur x (by rw [hw]; exact List.mem_cons_of_mem hd hx)

theorem condWF_broadcast {cv : ABTI_cond} (h : CondWF cv) :
    CondWF (cond_broadcast cv).cond := by
  obtain ⟨hiff, hempty, hfull⟩ := h
  unfold cond_broadcast
  by_cases h0 : cv.num_waiters = 0
  · simp only [h0, if_true]
    exact ⟨hiff, hempty, hfull⟩
  · obtain ⟨hlen, _⟩ := hfull h0
    cases hw : cv.waiters with
    | nil => rw [hw] at hlen; exact absurd hlen.symm h0
    | cons hd rest =>
      simp only [h0, if_false, hw]
      refine ⟨by simp, by simp, by simp⟩

/-- Every reachable CV state is well-formed. -/
theorem condReach_wf {cv : ABTI_cond} (h : CondReach cv) : CondWF cv := by
  induction h with
  | create => exact condWF_create
  | wait cv ctx mutex extAddr allocOk errno cv' _ heq ih =>
    exact condWF_wait ih heq
  | signal cv _ ih => exact condWF_signal ih
  | broadcast cv _ ih => exact condWF_broadcast ih

theorem condWF_liveCount {cv : ABTI_cond} (h : CondWF cv) :
    liveCount cv = cv.num_waiters := by
  obtain ⟨_hiff, hempty, hfull⟩ := h
  by_cases h0 : cv.num_waiters = 0
  · obtain ⟨_hlen, hcur⟩ := hempty h0
    rw [h0]
    unfold liveCount
    rw [List.countP_eq_zero]
    intro a ha
    simp [hcur a ha]
  · obtain ⟨hlen, hcur⟩ := hfull h0
    unfold liveCount
    rw [← hlen]
    rw [List.countP_eq_length]
    intro a ha
    have := hcur a ha
    simp only [Option.isSome_iff_ne_none]
    exact fun hnone => this hnone

theorem cond_wait_success_effect {cv : ABTI_cond} {ctx : ABTI_local_ctx}
    {m addr : Nat} {ok : Bool} {cv' : ABTI_cond} (h : CondWF cv)
    (heq : cond_wait cv ctx m addr ok =
      WaitOutcome.ret AbtError.success cv') :
    liveCount cv' = liveCount cv + 1 ∧
    cv'.num_waiters = cv.num_waiters + 1 := by
  obtain ⟨hiff, hempty, hfull⟩ := h
  have henq : ∀ t ty, cond_wait_enqueue cv t ty m ok =
      WaitOutcome.ret AbtError.success cv' →
      liveCount cv' = liveCount cv + 1 ∧
      cv'.num_waiters = cv.num_waiters + 1 := by
    intro t ty henq
    cases hm : cv.waiter_mutex with
    | none =>
      have h0 : cv.num_waiters = 0 := hiff.mpr hm
      obtain ⟨hlen, hcur⟩ := hempty h0
      cases hw : cv.waiters with
      | nil => rw [hw] at hlen; simp at hlen
      | cons a rest =>
        rw [hw] at hlen
        have hrest : rest = [] := by simpa using hlen
        subst hrest
        rw [cond_wait_enqueue_first hm h0 hw t ty m ok] at henq
        simp only [WaitOutcome.ret.injEq, true_and] at henq
        subst henq
        rw [hw] at hcur
        have ha : a.current = none := hcur a (List.mem_singleton.mpr rfl)
        constructor
        · unfold liveCount
          simp [hw, ha]
        · simp [h0]
    | some m' =>
      by_cases hmm : m' = m
      · subst hmm
        have hne : cv.num_waiters ≠ 0 := by
          intro h0
          rw [hiff.mp h0] at hm
          exact Option.noConfusion hm
        cases ok with
        | false =>
          rw [cond_wait_enqueue_alloc_fail hm hne t ty] at henq
          exact WaitOutcome.noConfusion henq
        | true =>
          rw [cond_wait_enqueue_append hm hne t ty] at henq
          simp only [WaitOutcome.ret.injEq, true_and] at henq
          subst henq
          constructor
          · unfold liveCount
            simp
          · rfl
      · rw [cond_wait_enqueue_mismatch hm hmm t ty ok] at henq
        simp at henq
  cases ctx with
  | uninit => exact henq addr ABT_unit_type.ext heq
  | init o =>
    cases o with
    | none => simp [cond_wait] at heq
    | some tid => exact henq tid ABT_unit_type.thread heq

theorem cond_signal_effect {cv : ABTI_cond} (h : CondWF cv)
    (hne : cv.num_waiters ≠ 0) :
    liveCount (cond_signal cv).cond = liveCount cv - 1 ∧
    (cond_signal cv).cond.num_waiters = cv.num_waiters - 1 := by
  obtain ⟨_hiff, _hempty, hfull⟩ := h
  obtain ⟨hlen, hcur⟩ := hfull hne
  unfold cond_signal
  cases hw : cv.waiters with
  | nil => rw [hw] at hlen; exact absurd hlen.symm hne
  | cons hd rest =>
    have hhd : hd.current.isSome = true := by
      have := hcur hd (by rw [hw]; exact List.mem_cons_self hd rest)
      simp only [Option.isSome_iff_ne_none]
      exact fun hnone => this hnone
    by_cases h1 : cv.num_waiters = 1
    · simp only [hne, if_false, hw, h1, if_true]
      constructor
      · unfold liveCount
        simp [hw, hhd]
      · simp [h1]
    · simp only [hne, if_false, hw, h1, if_true]
      constructor
      · unfold liveCount
        simp [hw, hhd]
      · trivial

/-- C3: invariant preserved by every CV operation (create, wait, signal,
broadcast): in every reachable state, `num_waiters == 0` iff the
associated mutex is `ABT_MUTEX_NULL`. -/
theorem cond_mutex_iff_no_waiters (cv : ABTI_cond) (h : CondReach cv) :
    cv.num_waiters = 0 ↔ cv.waiter_mutex = none :=
  (condReach_wf h).1

/-- Witness for C3 at the freshly created CV. -/
theorem cond_mutex_iff_no_waiters_witness :
    cond_create.num_waiters = 0 ↔ cond_create.waiter_mutex = none :=
  cond_mutex_iff_no_waiters cond_create CondReach.create

/-- C8: in every reachable state the number of live entries on the walk
from head to tail equals `num_waiters`; moreover every successful wait
adds exactly one live entry and increments `num_waiters`, and every
signal on a non-empty CV removes exactly one live entry and decrements
`num_waiters`. -/
theorem cond_queue_length_invariant (cv : ABTI_cond) (h : CondReach cv) :
    liveCount cv = cv.num_waiters ∧
    (∀ (ctx : ABTI_local_ctx) (m addr : Nat) (ok : Bool) (cv' : ABTI_cond),
      cond_wait cv ctx m addr ok = WaitOutcome.ret AbtError.success cv' →
      liveCount cv' = liveCount cv + 1 ∧
      cv'.num_waiters = cv.num_waiters + 1) ∧
    (cv.num_waiters ≠ 0 →
      liveCount (cond_signal cv).cond = liveCount cv - 1 ∧
      (cond_signal cv).cond.num_waiters = cv.num_waiters - 1) := by
  have hwf := condReach_wf h
  refine ⟨condWF_liveCount hwf, ?_, ?_⟩
  · intro ctx m addr ok cv' heq
    exact cond_wait_success_effect hwf heq
  · intro hne
    exact cond_signal_effect hwf hne

/-- Witness for C8 at the freshly created CV. -/
theorem cond_queue_length_invariant_witness :
    liveCount cond_create = cond_create.num_waiters ∧
    (∀ (ctx : ABTI_local_ctx) (m addr : Nat) (ok : Bool) (cv' : ABTI_cond),
      cond_wait cond_create ctx m addr ok =
        WaitOutcome.ret AbtError.success cv' →
      liveCount cv' = liveCount cond_create + 1 ∧
      cv'.num_waiters = cond_create.num_waiters + 1) ∧
    (cond_create.num_waiters ≠ 0 →
      liveCount (cond_signal cond_create).cond = liveCount cond_create - 1 ∧
      (cond_signal cond_create).cond.num_waiters =
        cond_create.num_waiters - 1) :=
  cond_queue_length_invariant cond_create CondReach.create

/-- C6: a signal on a CV with no waiters is a no-op: it returns
`ABT_SUCCESS`, wakes nobody, frees nothing, and leaves the state
(waiter count, associated mutex, waiter queue) unchanged. -/
theorem cond_signal_empty_noop (cv : ABTI_cond) (h : cv.num_waiters = 0) :
    cond_signal cv =
      { errno := AbtError.success, cond := cv, woken := none, freed := 0 } := by
  unfold cond_signal
  simp [h]

/-- Witness for C6 at the freshly created CV. -/
theorem cond_signal_empty_noop_witness :
    cond_signal cond_create =
      { errno := AbtError.success, cond := cond_create, woken := none,
        freed := 0 } :=
  cond_signal_empty_noop cond_create rfl

/-- C5: a wait (by any caller that resolves to a waiter) with a user
mutex different from the currently associated one returns
`ABT_ERR_INV_MUTEX` with the CV state completely unchanged: the waiter
count, the associated mutex, and every already-enqueued waiter stay as
they were. -/
theorem cond_wait_mismatch_rejected (cv : ABTI_cond) (ctx : ABTI_local_ctx)
    (m addr m' : Nat) (ok : Bool) (hm : cv.waiter_mutex = some m')
    (hne : m' ≠ m) (hctx : ctx ≠ ABTI_local_ctx.init none) :
    cond_wait cv ctx m addr ok =
      WaitOutcome.ret AbtError.err_inv_mutex cv := by
  cases ctx with
  | uninit => exact cond_wait_enqueue_mismatch hm hne addr ABT_unit_type.ext ok
  | init o =>
    cases o with
    | none => exact absurd rfl hctx
    | some tid =>
      exact cond_wait_enqueue_mismatch hm hne tid ABT_unit_type.thread ok

/-- Witness for C5: ULT 1 waits with mutex 5; a wait by ULT 2 with
mutex 6 is rejected with `ABT_ERR_INV_MUTEX` and the CV (one waiter,
mutex 5) is untouched. -/
theorem cond_wait_mismatch_rejected_witness :
    cond_wait cvOneWaiter (ABTI_local_ctx.init (some 2)) 6 0 true =
      WaitOutcome.ret AbtError.err_inv_mutex cvOneWaiter :=
  cond_wait_mismatch_rejected cvOneWaiter (ABTI_local_ctx.init (some 2))
    6 0 5 true rfl (by decide) (by decide)

/-- C9: caller-kind determination in wait: with an uninitialized
thread-local the call proceeds as an external-thread wait and enqueues
an `ABT_UNIT_TYPE_EXT` waiter pointing at the caller's flag; with an
initialized thread-local but no current ULT the call returns
`ABT_ERR_COND` without touching the CV. -/
theorem cond_wait_caller_kind (cv : ABTI_cond) (m addr : Nat) (ok : Bool)
    (hmx : cv.waiter_mutex = none ∨ cv.waiter_mutex = some m)
    (halloc : cv.num_waiters = 0 ∨ ok = true)
    (hw : cv.waiters ≠ []) :
    (∃ cv', cond_wait cv ABTI_local_ctx.uninit m addr ok =
        WaitOutcome.ret AbtError.success cv' ∧
      cv'.num_waiters = cv.num_waiters + 1 ∧
      ({ current := some addr, type := ABT_unit_type.ext } :
        ABTI_thread_entry) ∈ cv'.waiters) ∧
    cond_wait cv (ABTI_local_ctx.init none) m addr ok =
      WaitOutcome.ret AbtError.err_cond cv := by
  constructor
  · show ∃ cv', cond_wait_enqueue cv addr ABT_unit_type.ext m ok = _ ∧ _
    cases hm : cv.waiter_mutex with
    | none =>
      by_cases h0 : cv.num_waiters = 0
      · cases hwl : cv.waiters with
        | nil => exact absurd hwl hw
        | cons a rest =>
          refine ⟨_, cond_wait_enqueue_first hm h0 hwl addr
            ABT_unit_type.ext m ok, ?_, ?_⟩
          · simp [h0]
          · exact List.mem_cons_self _ _
      · have hok : ok = true := halloc.resolve_left h0
        subst hok
        refine ⟨_, cond_wait_enqueue_append_setm hm h0 addr
          ABT_unit_type.ext, ?_, ?_⟩
        · rfl
        · simp
    | some mm =>
      have hmm : mm = m := by
        rcases hmx with hx | hx
        · rw [hm] at hx; exact Option.noConfusion hx
        · rw [hm] at hx; exact Option.some.inj hx
      subst hmm
      by_cases h0 : cv.num_waiters = 0
      · cases hwl : cv.waiters with
        | nil => exact absurd hwl hw
        | cons a rest =>
          refine ⟨_, cond_wait_enqueue_reuse_assoc hm h0 hwl addr
            ABT_unit_type.ext ok, ?_, ?_⟩
          · simp [h0]
          · exact List.mem_cons_self _ _
      · have hok : ok = true := halloc.resolve_left h0
        subst hok
        refine ⟨_, cond_wait_enqueue_append hm h0 addr ABT_unit_type.ext,
          ?_, ?_⟩
        · rfl
        · simp
  · rfl

/-- Witness for C9: on a fresh CV, an external wait (uninitialized
thread-local) enqueues an external waiter for flag 42, while an
initialized thread-local with no current ULT yields `ABT_ERR_COND`. -/
theorem cond_wait_caller_kind_witness :
    (∃ cv', cond_wait cond_create ABTI_local_ctx.uninit 7 42 true =
        WaitOutcome.ret AbtError.success cv' ∧
      cv'.num_waiters = cond_create.num_waiters + 1 ∧
      ({ current := some 42, type := ABT_unit_type.ext } :
        ABTI_thread_entry) ∈ cv'.waiters) ∧
    cond_wait cond_create (ABTI_local_ctx.init none) 7 42 true =
      WaitOutcome.ret AbtError.err_cond cond_create :=
  cond_wait_caller_kind cond_create 7 42 true (Or.inl rfl) (Or.inl rfl)
    (by decide)

/-- C10: on a non-null handle, signal and broadcast return `ABT_SUCCESS`
in every CV state (the embedded bodies perform no fallible allocation),
and the only error either can produce is the invalid-handle error on a
null handle. -/
theorem cond_signal_broadcast_total_success (cv : ABTI_cond) :
    ABT_cond_signal_errno (some cv) = AbtError.success ∧
    ABT_cond_broadcast_errno (some cv) = AbtError.success ∧
    ABT_cond_signal_errno none = AbtError.err_inv_cond ∧
    ABT_cond_broadcast_errno none = AbtError.err_inv_cond := by
  refine ⟨?_, ?_, rfl, rfl⟩
  · show (cond_signal cv).errno = AbtError.success
    unfold cond_signal
    split
    · rfl
    · split
      · rfl
      · split <;> rfl
  · show (cond_broadcast cv).errno = AbtError.success
    unfold cond_broadcast
    split
    · rfl
    · split <;> rfl

/-- C2: a broadcast on a well-formed CV with at least one waiter wakes
every waiter in head-to-tail order (ULT targets are set READY, external
targets have their flags stored 1), frees exactly `num_waiters - 1`
nodes (the head node is retained as the sentinel), and leaves the CV
empty: `num_waiters = 0`, no associated mutex, the queue reduced to the
single cleared sentinel. -/
theorem cond_broadcast_wakes_all (cv : ABTI_cond) (h : CondWF cv)
    (hne : cv.num_waiters ≠ 0) :
    (cond_broadcast cv).errno = AbtError.success ∧
    (cond_broadcast cv).woken = cv.waiters.map wake ∧
    (cond_broadcast cv).freed = cv.num_waiters - 1 ∧
    (cond_broadcast cv).cond.num_waiters = 0 ∧
    (cond_broadcast cv).cond.waiter_mutex = none ∧
    (cond_broadcast cv).cond.waiters.length = 1 ∧
    ∀ e ∈ (cond_broadcast cv).cond.waiters, e.current = none := by
  obtain ⟨_hiff, _hempty, hfull⟩ := h
  obtain ⟨hlen, _hcur⟩ := hfull hne
  unfold cond_broadcast
  cases hw : cv.waiters with
  | nil => rw [hw] at hlen; exact absurd hlen.symm hne
  | cons hd rest =>
    simp only [hne, if_false, hw]
    refine ⟨by trivial, by trivial, ?_, by trivial, by trivial, by trivial,
      ?_⟩
    · show rest.length = cv.num_waiters - 1
      rw [hw] at hlen
      simp at hlen
      omega
    · intro e he
      simp only [List.mem_singleton] at he
      subst he
      rfl

/-- Witness for C2 at a CV holding three ULT waiters. -/
theorem cond_broadcast_wakes_all_witness :
    (cond_broadcast cvThreeWaiters).errno = AbtError.success ∧
    (cond_broadcast cvThreeWaiters).woken = cvThreeWaiters.waiters.map wake ∧
    (cond_broadcast cvThreeWaiters).freed = cvThreeWaiters.num_waiters - 1 ∧
    (cond_broadcast cvThreeWaiters).cond.num_waiters = 0 ∧
    (cond_broadcast cvThreeWaiters).cond.waiter_mutex = none ∧
    (cond_broadcast cvThreeWaiters).cond.waiters.length = 1 ∧
    ∀ e ∈ (cond_broadcast cvThreeWaiters).cond.waiters, e.current = none :=
  cond_broadcast_wakes_all cvThreeWaiters (by decide) (by decide)

/-- C4 counterexample: with one waiter enqueued and a failing allocator,
a second wait does not return `ABT_ERR_MEM` with the CV unchanged: the
`assert(p_entry != NULL)` on the allocation result fails and the call
aborts instead of returning. -/
theorem cond_wait_alloc_failure_cex :
    cond_wait cvOneWaiter (ABTI_local_ctx.init (some 2)) 5 0 false =
      WaitOutcome.abort ∧
    ∀ (e : AbtError) (s : ABTI_cond),
      WaitOutcome.abort ≠ WaitOutcome.ret e s := by
  constructor
  · decide
  · intro e s hcontra
    exact WaitOutcome.noConfusion hcontra

/-- C4 amended: if allocating a waiter node during wait fails (second or
later waiter on a CV whose associated mutex matches), the call aborts
through `assert(p_entry != NULL)`; in particular it never returns
`ABT_ERR_MEM`. -/
theorem cond_wait_alloc_failure_aborts (cv : ABTI_cond)
    (ctx : ABTI_local_ctx) (m addr : Nat)
    (hm : cv.waiter_mutex = some m) (hne : cv.num_waiters ≠ 0)
    (hctx : ctx ≠ ABTI_local_ctx.init none) :
    cond_wait cv ctx m addr false = WaitOutcome.abort := by
  cases ctx with
  | uninit => exact cond_wait_enqueue_alloc_fail hm hne addr ABT_unit_type.ext
  | init o =>
    cases o with
    | none => exact absurd rfl hctx
    | some tid =>
      exact cond_wait_enqueue_alloc_fail hm hne tid ABT_unit_type.thread

/-- Witness for the amended C4 at a CV with one waiter. -/
theorem cond_wait_alloc_failure_aborts_witness :
    cond_wait cvOneWaiter (ABTI_local_ctx.init (some 2)) 5 1 false =
      WaitOutcome.abort :=
  cond_wait_alloc_failure_aborts cvOneWaiter (ABTI_local_ctx.init (some 2))
    5 1 rfl (by decide) (by decide)

theorem waitStep_eq (m : Nat) (cv : ABTI_cond) (w : Nat × ABT_unit_type) :
    waitStep m cv w =
      match cond_wait_enqueue cv w.1 w.2 m true with
      | WaitOutcome.ret _ cv' => cv'
      | WaitOutcome.abort => cv := by
  obtain ⟨t, ty⟩ := w
  cases ty <;> rfl

theorem enqueueAll_cons (m : Nat) (cv : ABTI_cond) (w : Nat × ABT_unit_type)
    (ws : List (Nat × ABT_unit_type)) :
    enqueueAll m cv (w :: ws) = enqueueAll m (waitStep m cv w) ws := rfl

theorem enqueueAll_nonempty (m : Nat) (ws : List (Nat × ABT_unit_type)) :
    ∀ es : List ABTI_thread_entry, es ≠ [] →
      enqueueAll m { waiter_mutex := some m, num_waiters := es.length,
                     waiters := es } ws =
      { waiter_mutex := some m, num_waiters := es.length + ws.length,
        waiters := es ++ ws.map mkEntry } := by
  induction ws with
  | nil =>
    intro es _
    simp [enqueueAll]
  | cons w ws ih =>
    intro es hne
    rw [enqueueAll_cons]
    have hnz : ({ waiter_mutex := some m, num_waiters := es.length,
                  waiters := es } : ABTI_cond).num_waiters ≠ 0 := by
      simpa using hne
    have hstep : waitStep m { waiter_mutex := some m,
                              num_waiters := es.length,
                              waiters := es } w =
        { waiter_mutex := some m, num_waiters := es.length + 1,
          waiters := es ++ [mkEntry w] } := by
      rw [waitStep_eq]
      rw [cond_wait_enqueue_append rfl hnz w.1 w.2]
      rfl
    rw [hstep]
    have h2 := ih (es ++ [mkEntry w]) (by simp)
    simp only [List.length_append, List.length_singleton] at h2
    rw [h2]
    simp only [ABTI_cond.mk.injEq]
    refine ⟨by trivial, ?_, ?_⟩
    · simp only [List.length_cons]
      omega
    · simp

theorem enqueueAll_create (m : Nat) (w : Nat × ABT_unit_type)
    (ws : List (Nat × ABT_unit_type)) :
    enqueueAll m cond_create (w :: ws) =
      { waiter_mutex := some m, num_waiters := (w :: ws).length,
        waiters := (w :: ws).map mkEntry } := by
  rw [enqueueAll_cons]
  have hstep : waitStep m cond_create w =
      { waiter_mutex := some m, num_waiters := 1,
        waiters := [mkEntry w] } := by
    rw [waitStep_eq]
    rw [cond_wait_enqueue_first
      (rfl : cond_create.waiter_mutex = none)
      (rfl : cond_create.num_waiters = 0)
      (rfl : cond_create.waiters =
        { current := none, type := ABT_unit_type.thread } :: [])
      w.1 w.2 m true]
    rfl
  rw [hstep]
  have h2 := enqueueAll_nonempty m ws [mkEntry w] (by simp)
  simp only [List.length_singleton] at h2
  rw [h2]
  simp only [ABTI_cond.mk.injEq, List.length_cons, List.map_cons]
  refine ⟨by trivial, ?_, ?_⟩
  · simp [Nat.add_comm]
  · simp

theorem signalAll_fst_succ (cv : ABTI_cond) (n : Nat) :
    (signalAll cv (n + 1)).1 =
      (cond_signal cv).woken.toList ++
        (signalAll (cond_signal cv).cond n).1 := rfl

theorem signalAll_drain (m : Nat) :
    ∀ es : List ABTI_thread_entry, es ≠ [] →
      (signalAll { waiter_mutex := some m, num_waiters := es.length,
                   waiters := es } es.length).1 = es.map wake := by
  intro es
  induction es with
  | nil => intro h; exact absurd rfl h
  | cons e es ih =>
    intro _
    cases es with
    | nil => rfl
    | cons e2 es2 =>
      simp only [List.length_cons]
      rw [signalAll_fst_succ]
      have hsig : cond_signal { waiter_mutex := some m,
                                num_waiters := es2.length + 1 + 1,
                                waiters := e :: e2 :: es2 } =
          { errno := AbtError.success
            cond := { waiter_mutex := some m,
                      num_waiters := es2.length + 1,
                      waiters := e2 :: es2 }
            woken := some (wake e)
            freed := 1 } := rfl
      rw [hsig]
      have ih2 := ih (List.cons_ne_nil e2 es2)
      simp only [List.length_cons] at ih2
      show [wake e] ++ (signalAll { waiter_mutex := some m,
                                    num_waiters := es2.length + 1,
                                    waiters := e2 :: es2 }
        (es2.length + 1)).1 = (e :: e2 :: es2).map wake
      rw [ih2]
      rfl

/-- C1: FIFO wake order: enqueueing the waiters `ws` (in that order, all
with the same user mutex) on a fresh CV and then performing `ws.length`
signal calls wakes exactly those waiters, in enqueue order: the k-th
signal wakes the k-th waiter. -/
theorem cond_fifo_wake_order (m : Nat) (ws : List (Nat × ABT_unit_type)) :
    (signalAll (enqueueAll m cond_create ws) ws.length).1 =
      ws.map (fun w => wake (mkEntry w)) := by
  cases ws with
  | nil => rfl
  | cons w ws2 =>
    rw [enqueueAll_create m w ws2]
    have h := signalAll_drain m ((w :: ws2).map mkEntry) (by simp)
    rw [List.length_map] at h
    rw [h]
    simp [List.map_map, Function.comp]

theorem applyPoolOps_size (ops : List PoolOp) :
    ∀ p : ABTI_pool, (applyPoolOps p ops).size = p.size := by
  induction ops with
  | nil => intro p; rfl
  | cons op ops ih =>
    intro p
    show (applyPoolOps (applyPoolOp p op) ops).size = p.size
    rw [ih]
    cases op <;> rfl

theorem applyPoolOps_blocked (ops : List PoolOp) :
    ∀ p : ABTI_pool, (applyPoolOps p ops).num_blocked =
      p.num_blocked + (ops.count PoolOp.incBlocked : Int) -
        (ops.count PoolOp.decBlocked : Int) := by
  induction ops with
  | nil => intro p; simp [applyPoolOps]
  | cons op ops ih =>
    intro p
    show (applyPoolOps (applyPoolOp p op) ops).num_blocked = _
    rw [ih]
    cases op <;>
      simp [applyPoolOp, ABTI_pool_inc_num_blocked,
        ABTI_pool_dec_num_blocked, ABTI_pool_inc_num_migrations,
        ABTI_pool_dec_num_migrations, List.count_cons] <;>
      omega

theorem applyPoolOps_migr (ops : List PoolOp) :
    ∀ p : ABTI_pool, (applyPoolOps p ops).num_migrations =
      p.num_migrations + (ops.count PoolOp.incMigr : Int) -
        (ops.count PoolOp.decMigr : Int) := by
  induction ops with
  | nil => intro p; simp [applyPoolOps]
  | cons op ops ih =>
    intro p
    show (applyPoolOps (applyPoolOp p op) ops).num_migrations = _
    rw [ih]
    cases op <;>
      simp [applyPoolOp, ABTI_pool_inc_num_blocked,
        ABTI_pool_dec_num_blocked, ABTI_pool_inc_num_migrations,
        ABTI_pool_dec_num_migrations, List.count_cons] <;>
      omega

/-- C7: the total size of a pool is the vtable size plus the blocked and
migration counters, and in every pool state reachable through bracketed
accounting (each decrement has a matching increment) the total size
never falls below `get_size`. -/
theorem pool_total_size_lower_bound (sz : Nat) (ops : List PoolOp)
    (h : bracketed ops) :
    ABTI_pool_get_total_size (applyPoolOps (pool_init sz) ops) =
      (ABTI_pool_get_size (applyPoolOps (pool_init sz) ops) : Int) +
        (applyPoolOps (pool_init sz) ops).num_blocked +
        (applyPoolOps (pool_init sz) ops).num_migrations ∧
    (ABTI_pool_get_size (applyPoolOps (pool_init sz) ops) : Int) ≤
      ABTI_pool_get_total_size (applyPoolOps (pool_init sz) ops) := by
  obtain ⟨hb, hmg⟩ := h
  refine ⟨rfl, ?_⟩
  unfold ABTI_pool_get_total_size
  rw [applyPoolOps_blocked ops (pool_init sz),
    applyPoolOps_migr ops (pool_init sz)]
  simp only [pool_init]
  omega

/-- Witness for C7 on a concrete bracketed accounting sequence. -/
theorem pool_total_size_lower_bound_witness :
    ABTI_pool_get_total_size (applyPoolOps (pool_init 2)
        [PoolOp.incBlocked, PoolOp.incMigr, PoolOp.decBlocked]) =
      (ABTI_pool_get_size (applyPoolOps (pool_init 2)
        [PoolOp.incBlocked, PoolOp.incMigr, PoolOp.decBlocked]) : Int) +
        (applyPoolOps (pool_init 2)
          [PoolOp.incBlocked, PoolOp.incMigr,
            PoolOp.decBlocked]).num_blocked +
        (applyPoolOps (pool_init 2)
          [PoolOp.incBlocked, PoolOp.incMigr,
            PoolOp.decBlocked]).num_migrations ∧
    (ABTI_pool_get_size (applyPoolOps (pool_init 2)
        [PoolOp.incBlocked, PoolOp.incMigr, PoolOp.decBlocked]) : Int) ≤
      ABTI_pool_get_total_size (applyPoolOps (pool_init 2)
        [PoolOp.incBlocked, PoolOp.incMigr, PoolOp.decBlocked]) :=
  pool_total_size_lower_bound 2
    [PoolOp.incBlocked, PoolOp.incMigr, PoolOp.decBlocked] (by decide)
